import Mathlib

/-! # Wavious image header (`include/image.h`)

A shallow embedding of the declarations of `image.h`: the magic constant, the
three enumerations with the values C assigns to their members, and the packed
record `img_hdr_t` with the byte layout that packing gives it.  The header file
holds declarations only; the codec and the validator that the specification
describes on top of it are modelled from the specification and marked so.
-/

namespace Image

/-! ## Constants -/

/-- The magic constant, `#define IMAGE_MAGIC (0xC0FE)`. -/
def IMAGE_MAGIC : Nat := 0xC0FE

/-! ## Enumerations

A C enumeration is a list of enumerators in declaration order, each with an
optional initializer.  An enumerator without initializer takes the value of the
previous one plus one, the first one takes zero. -/

/-- Initializer of an enumerator: absent, an integer literal, or the name of an
enumerator declared earlier in the same enumeration. -/
inductive EnumInit (α : Type) where
  | implicit : EnumInit α
  | lit : Nat → EnumInit α
  | ref : α → EnumInit α

/-- Value of an enumerator in an already evaluated list of enumerators. -/
def enumLookup {α : Type} [DecidableEq α] (m : α) : List (α × Nat) → Option Nat
  | [] => none
  | (k, v) :: rest => if k = m then some v else enumLookup m rest

/-- Evaluation of the enumerators of a declaration, left to right: `next` is the
value an enumerator without initializer receives, `done` holds the enumerators
evaluated so far (most recent first). -/
def enumEvalAux {α : Type} [DecidableEq α] :
    List (α × EnumInit α) → Nat → List (α × Nat) → List (α × Nat)
  | [], _, done => done.reverse
  | (m, .implicit) :: rest, next, done => enumEvalAux rest (next + 1) ((m, next) :: done)
  | (m, .lit n) :: rest, _, done => enumEvalAux rest (n + 1) ((m, n) :: done)
  | (m, .ref r) :: rest, _, done =>
      let v := (enumLookup r done).getD 0
      enumEvalAux rest (v + 1) ((m, v) :: done)

/-- The enumerators of a declaration with their values. -/
def enumEval {α : Type} [DecidableEq α] (decl : List (α × EnumInit α)) : List (α × Nat) :=
  enumEvalAux decl 0 []

/-- Members of `image_type_t`. -/
inductive image_type_t where
  | IMAGE_TYPE_BOOTLOADER
  | IMAGE_TYPE_APP
  deriving DecidableEq

/-- Members of `image_version_t`. -/
inductive image_version_t where
  | IMAGE_VERSION_1
  | IMAGE_VERSION_CURRENT
  deriving DecidableEq

/-- Members of `image_device_id_t`. -/
inductive image_device_id_t where
  | IMAGE_DEVICE_ID_HOST
  | IMAGE_DEVICE_ID_WDDR
  | IMAGE_DEVICE_ID_WLP
  | IMAGE_DEVICE_ID_WTM
  deriving DecidableEq

open image_type_t image_version_t image_device_id_t

/-- Declaration of `image_type_t`: no enumerator has an initializer. -/
def image_type_t.decl : List (image_type_t × EnumInit image_type_t) :=
  [ (IMAGE_TYPE_BOOTLOADER, .implicit),
    (IMAGE_TYPE_APP, .implicit) ]

/-- Declaration of `image_version_t`:
`IMAGE_VERSION_1 = 1, IMAGE_VERSION_CURRENT = IMAGE_VERSION_1`. -/
def image_version_t.decl : List (image_version_t × EnumInit image_version_t) :=
  [ (IMAGE_VERSION_1, .lit 1),
    (IMAGE_VERSION_CURRENT, .ref IMAGE_VERSION_1) ]

/-- Declaration of `image_device_id_t`: `IMAGE_DEVICE_ID_HOST = 1`, the others
carry no initializer. -/
def image_device_id_t.decl : List (image_device_id_t × EnumInit image_device_id_t) :=
  [ (IMAGE_DEVICE_ID_HOST, .lit 1),
    (IMAGE_DEVICE_ID_WDDR, .implicit),
    (IMAGE_DEVICE_ID_WLP, .implicit),
    (IMAGE_DEVICE_ID_WTM, .implicit) ]

/-- Numeric value of a member of `image_type_t`. -/
def image_type_t.val (m : image_type_t) : Nat :=
  (enumLookup m (enumEval image_type_t.decl)).getD 0

/-- Numeric value of a member of `image_version_t`. -/
def image_version_t.val (m : image_version_t) : Nat :=
  (enumLookup m (enumEval image_version_t.decl)).getD 0

/-- Numeric value of a member of `image_device_id_t`. -/
def image_device_id_t.val (m : image_device_id_t) : Nat :=
  (enumLookup m (enumEval image_device_id_t.decl)).getD 0

/-- The member of an evaluated enumeration that has the raw value `raw`, if any
(the first one in declaration order when several share the value). -/
def enumOfRaw {α : Type} (raw : Nat) : List (α × Nat) → Option α
  | [] => none
  | (k, v) :: rest => if v = raw then some k else enumOfRaw raw rest

/-- Raw integer to member of `image_type_t`. -/
def image_type_t.ofRaw (raw : Nat) : Option image_type_t :=
  enumOfRaw raw (enumEval image_type_t.decl)

/-- Raw integer to member of `image_version_t`. -/
def image_version_t.ofRaw (raw : Nat) : Option image_version_t :=
  enumOfRaw raw (enumEval image_version_t.decl)

/-- Raw integer to member of `image_device_id_t`. -/
def image_device_id_t.ofRaw (raw : Nat) : Option image_device_id_t :=
  enumOfRaw raw (enumEval image_device_id_t.decl)

/-! ## The packed record `img_hdr_t` -/

/-- The C types that occur in `img_hdr_t`. -/
inductive CType where
  | uint8_t
  | uint16_t
  | uint32_t
  | charArray (n : Nat)
  deriving DecidableEq

/-- Size in bytes of a C type (`sizeof`). -/
def CType.size : CType → Nat
  | .uint8_t => 1
  | .uint16_t => 2
  | .uint32_t => 4
  | .charArray n => n

/-- Width in bits of a C type. -/
def CType.bits (t : CType) : Nat := 8 * t.size

/-- A value of `img_hdr_t`.  Integer members are natural numbers, `git_sha` is
the sequence of its bytes; `img_hdr_t.InRange` says that every member fits its
declared type. -/
structure img_hdr_t where
  image_magic : Nat
  image_hdr_version : Nat
  crc : Nat
  data_size : Nat
  image_type : Nat
  version_major : Nat
  version_minor : Nat
  version_patch : Nat
  vector_addr : Nat
  device_id : Nat
  git_dirty : Nat
  git_ahead : Nat
  git_sha : List Nat
  deriving DecidableEq

/-- Every member of the header value fits its declared type: `uint16_t`,
`uint16_t`, `uint32_t`, `uint32_t`, four `uint8_t`, `uint32_t`, `uint16_t`, two
`uint8_t`, and eight bytes of `git_sha`. -/
def img_hdr_t.InRange (h : img_hdr_t) : Prop :=
  h.image_magic < 2 ^ CType.uint16_t.bits ∧
  h.image_hdr_version < 2 ^ CType.uint16_t.bits ∧
  h.crc < 2 ^ CType.uint32_t.bits ∧
  h.data_size < 2 ^ CType.uint32_t.bits ∧
  h.image_type < 2 ^ CType.uint8_t.bits ∧
  h.version_major < 2 ^ CType.uint8_t.bits ∧
  h.version_minor < 2 ^ CType.uint8_t.bits ∧
  h.version_patch < 2 ^ CType.uint8_t.bits ∧
  h.vector_addr < 2 ^ CType.uint32_t.bits ∧
  h.device_id < 2 ^ CType.uint16_t.bits ∧
  h.git_dirty < 2 ^ CType.uint8_t.bits ∧
  h.git_ahead < 2 ^ CType.uint8_t.bits ∧
  h.git_sha.length = (CType.charArray 8).size ∧
  ∀ x ∈ h.git_sha, x < 2 ^ CType.uint8_t.bits

instance (h : img_hdr_t) : Decidable h.InRange := by
  unfold img_hdr_t.InRange
  infer_instance

/-- Names of the fields of `img_hdr_t`. -/
inductive Field where
  | image_magic
  | image_hdr_version
  | crc
  | data_size
  | image_type
  | version_major
  | version_minor
  | version_patch
  | vector_addr
  | device_id
  | git_dirty
  | git_ahead
  | git_sha
  deriving DecidableEq

/-- The member declarations of `struct image_header_t`, in declaration order. -/
def img_hdr_t.members : List (Field × CType) :=
  [ (.image_magic, .uint16_t),
    (.image_hdr_version, .uint16_t),
    (.crc, .uint32_t),
    (.data_size, .uint32_t),
    (.image_type, .uint8_t),
    (.version_major, .uint8_t),
    (.version_minor, .uint8_t),
    (.version_patch, .uint8_t),
    (.vector_addr, .uint32_t),
    (.device_id, .uint16_t),
    (.git_dirty, .uint8_t),
    (.git_ahead, .uint8_t),
    (.git_sha, .charArray 8) ]

/-- Size of a record declared `__attribute__((packed))`: members are laid out
back to back, so the size is the sum of the member sizes. -/
def packedSize (s : List (Field × CType)) : Nat :=
  (s.map fun p => p.2.size).sum

/-- Offset of a member in a packed record: the sizes of the members declared
before it, added up.  `none` when the record has no such member. -/
def packedOffset (f : Field) : List (Field × CType) → Option Nat
  | [] => none
  | (g, t) :: rest =>
      if g = f then some 0 else (packedOffset f rest).map (· + t.size)

/-- Declared type of a member. -/
def fieldType (f : Field) : List (Field × CType) → Option CType
  | [] => none
  | (g, t) :: rest => if g = f then some t else fieldType f rest

/-- Byte offset of a field of `img_hdr_t`. -/
def Field.offset (f : Field) : Nat := (packedOffset f img_hdr_t.members).getD 0

/-- Byte size of a field of `img_hdr_t`. -/
def Field.size (f : Field) : Nat :=
  ((fieldType f img_hdr_t.members).map CType.size).getD 0

/-- Bit width of a field of `img_hdr_t`. -/
def Field.bits (f : Field) : Nat := ((fieldType f img_hdr_t.members).map CType.bits).getD 0

/-- One past the last byte of a field of `img_hdr_t`. -/
def Field.stop (f : Field) : Nat := f.offset + f.size

/-- The header length, `sizeof(img_hdr_t)`. -/
def HEADER_LEN : Nat := packedSize img_hdr_t.members

/-- Storing the integer `v` into an unsigned field of `bits` bits keeps the low
`bits` bits. -/
def store (bits : Nat) (v : Nat) : Nat := v % 2 ^ bits

/-! ## Header codec -/

/-- A buffer of bytes: every element is below 256. -/
def IsBytes (b : List Nat) : Prop := ∀ x ∈ b, x < 256

instance (b : List Nat) : Decidable (IsBytes b) := by
  unfold IsBytes
  infer_instance

/-- Modelled from the spec: the header file has no serializer; the
specification fixes little-endian byte order and fixed widths.  The `n` bytes
of the unsigned integer `v`, least significant first. -/
def leBytes : Nat → Nat → List Nat
  | 0, _ => []
  | n + 1, v => v % 256 :: leBytes n (v / 256)

/-- Modelled from the spec: the header file has no deserializer.  The unsigned
integer that a byte sequence holds in little-endian order, without sign
extension. -/
def leValue : List Nat → Nat
  | [] => 0
  | b :: bs => b + 256 * leValue bs

/-- The bytes of a buffer that belong to field `f` of the packed record. -/
def slice (b : List Nat) (f : Field) : List Nat :=
  (b.drop f.offset).take f.size

/-- Errors of `Decode`. -/
inductive DecodeError where
  | TruncatedHeader
  deriving DecidableEq

/-- Modelled from the spec: `Encode` is absent from the header file.  The
fields in declared order, each in little-endian order at its fixed width. -/
def Encode (h : img_hdr_t) : List Nat :=
  leBytes Field.image_magic.size h.image_magic ++
  leBytes Field.image_hdr_version.size h.image_hdr_version ++
  leBytes Field.crc.size h.crc ++
  leBytes Field.data_size.size h.data_size ++
  leBytes Field.image_type.size h.image_type ++
  leBytes Field.version_major.size h.version_major ++
  leBytes Field.version_minor.size h.version_minor ++
  leBytes Field.version_patch.size h.version_patch ++
  leBytes Field.vector_addr.size h.vector_addr ++
  leBytes Field.device_id.size h.device_id ++
  leBytes Field.git_dirty.size h.git_dirty ++
  leBytes Field.git_ahead.size h.git_ahead ++
  h.git_sha

/-- Modelled from the spec: `Decode` is absent from the header file.  Input
shorter than the header length is `TruncatedHeader`; otherwise each field is
read from its place in the header-length prefix, enum fields as raw integers
with no membership check. -/
def Decode (b : List Nat) : Except DecodeError img_hdr_t :=
  if b.length < HEADER_LEN then
    .error .TruncatedHeader
  else
    .ok
      { image_magic := leValue (slice b .image_magic)
        image_hdr_version := leValue (slice b .image_hdr_version)
        crc := leValue (slice b .crc)
        data_size := leValue (slice b .data_size)
        image_type := leValue (slice b .image_type)
        version_major := leValue (slice b .version_major)
        version_minor := leValue (slice b .version_minor)
        version_patch := leValue (slice b .version_patch)
        vector_addr := leValue (slice b .vector_addr)
        device_id := leValue (slice b .device_id)
        git_dirty := leValue (slice b .git_dirty)
        git_ahead := leValue (slice b .git_ahead)
        git_sha := slice b .git_sha }

/-! ## Header validator -/

/-- Reasons of an `invalid` verdict. -/
inductive Reason where
  | BadMagic
  | UnsupportedHeaderVersion
  | UnknownImageType
  | UnknownDeviceId
  | SizeMismatch
  | CrcMismatch
  | DeviceMismatch
  deriving DecidableEq

/-- Verdict of `Validate`: `valid` carries the header and whether the image is
a dirty build, `invalid` carries exactly one reason. -/
inductive ValidationVerdict where
  | valid (header : img_hdr_t) (dirty : Bool)
  | invalid (reason : Reason)
  deriving DecidableEq

/-- One step of the validation chain: pass, or stop with the reason. -/
def check (ok : Bool) (r : Reason) : Except Reason Unit :=
  if ok then .ok () else .error r

/-- Modelled from the spec: the device compatibility check of `Validate`,
which passes when the caller names no expected device. -/
def deviceMatches (expected : Option Nat) (device_id : Nat) : Bool :=
  match expected with
  | none => true
  | some d => device_id == d

/-- Modelled from the spec: the ordered checks of `Validate` as a chain that
stops at the first failure.  `crc32` is the checksum of the build tooling, which
the specification leaves open. -/
def runChecks (crc32 : List Nat → Nat) (expected : Option Nat)
    (header : img_hdr_t) (payload : List Nat) : Except Reason Unit := do
  check (header.image_magic == IMAGE_MAGIC) .BadMagic
  check (image_version_t.ofRaw header.image_hdr_version).isSome .UnsupportedHeaderVersion
  check (image_type_t.ofRaw header.image_type).isSome .UnknownImageType
  check (image_device_id_t.ofRaw header.device_id).isSome .UnknownDeviceId
  check (header.data_size == payload.length) .SizeMismatch
  check (crc32 payload == header.crc) .CrcMismatch
  check (deviceMatches expected header.device_id) .DeviceMismatch

/-- Modelled from the spec: `Validate` is absent from the header file.  The
verdict of the ordered checks; on success it carries the header and whether
`git_dirty` is set. -/
def Validate (crc32 : List Nat → Nat) (expected : Option Nat)
    (header : img_hdr_t) (payload : List Nat) : ValidationVerdict :=
  match runChecks crc32 expected header payload with
  | .ok () => .valid header (header.git_dirty != 0)
  | .error r => .invalid r

/-! ## Sample values -/

/-- A sample header: magic 0xC0FE, header version 1, image type App, device
WDDR, a three-byte payload. -/
def sampleHeader : img_hdr_t :=
  { image_magic := 0xC0FE
    image_hdr_version := 1
    crc := 0x12345678
    data_size := 3
    image_type := 1
    version_major := 1
    version_minor := 2
    version_patch := 3
    vector_addr := 0x80000000
    device_id := 2
    git_dirty := 0
    git_ahead := 5
    git_sha := [0x61, 0x62, 0x63, 0x64, 0x30, 0x31, 0x32, 0x33] }

/-- A sample 32-byte buffer whose image_type byte (offset 12) is 0xFF and whose
device_id bytes (offsets 20 and 21) are zero. -/
def sampleBuffer : List Nat :=
  [ 0xFE, 0xC0, 0x01, 0x00, 0x78, 0x56, 0x34, 0x12,
    0x03, 0x00, 0x00, 0x00, 0xFF, 0x01, 0x02, 0x03,
    0x00, 0x00, 0x00, 0x80, 0x00, 0x00, 0x00, 0x05,
    0x61, 0x62, 0x63, 0x64, 0x30, 0x31, 0x32, 0x33 ]

/-- The header value that `sampleBuffer` holds. -/
def sampleDecoded : img_hdr_t :=
  { sampleHeader with image_type := 0xFF, device_id := 0 }

end Image

namespace Image
open image_type_t image_version_t image_device_id_t

/-! ## Auxiliary lemmas: field sizes, offsets and little-endian integers -/

theorem Field.size_eq (f : Field) :
    f.size = (match f with
      | .image_magic => 2 | .image_hdr_version => 2 | .crc => 4 | .data_size => 4
      | .image_type => 1 | .version_major => 1 | .version_minor => 1
      | .version_patch => 1 | .vector_addr => 4 | .device_id => 2
      | .git_dirty => 1 | .git_ahead => 1 | .git_sha => 8) := by
  cases f <;> rfl

theorem Field.offset_eq (f : Field) :
    f.offset = (match f with
      | .image_magic => 0 | .image_hdr_version => 2 | .crc => 4 | .data_size => 8
      | .image_type => 12 | .version_major => 13 | .version_minor => 14
      | .version_patch => 15 | .vector_addr => 16 | .device_id => 20
      | .git_dirty => 22 | .git_ahead => 23 | .git_sha => 24) := by
  cases f <;> rfl

theorem leValue_leBytes (n v : Nat) : leValue (leBytes n v) = v % 256 ^ n := by
  induction n generalizing v with
  | zero => simp [leBytes, leValue, Nat.mod_one]
  | succ n ih =>
    simp only [leBytes, leValue, ih]
    rw [pow_succ', Nat.mod_mul]

theorem leBytes_length (n v : Nat) : (leBytes n v).length = n := by
  induction n generalizing v with
  | zero => rfl
  | succ n ih => simp [leBytes, ih]

theorem leBytes_isBytes (n v : Nat) : IsBytes (leBytes n v) := by
  induction n generalizing v with
  | zero => intro x hx; simp [leBytes] at hx
  | succ n ih =>
    intro x hx
    simp only [leBytes, List.mem_cons] at hx
    rcases hx with rfl | hx
    · exact Nat.mod_lt _ (by norm_num)
    · exact ih _ x hx

theorem leBytes_leValue (bs : List Nat) (hb : IsBytes bs) :
    leBytes bs.length (leValue bs) = bs := by
  induction bs with
  | nil => rfl
  | cons b bs ih =>
    have hb0 : b < 256 := hb b (List.mem_cons_self _ _)
    have hbs : IsBytes bs := fun x hx => hb x (List.mem_cons_of_mem _ hx)
    simp only [List.length_cons, leBytes, leValue]
    have h1 : (b + 256 * leValue bs) % 256 = b := by omega
    have h2 : (b + 256 * leValue bs) / 256 = leValue bs := by omega
    rw [h1, h2, ih hbs]

theorem leValue_lt (bs : List Nat) (hb : IsBytes bs) : leValue bs < 256 ^ bs.length := by
  induction bs with
  | nil => simp [leValue]
  | cons b bs ih =>
    have hb0 : b < 256 := hb b (List.mem_cons_self _ _)
    have hbs : IsBytes bs := fun x hx => hb x (List.mem_cons_of_mem _ hx)
    have := ih hbs
    simp only [List.length_cons, leValue, pow_succ]
    omega

theorem header_len : HEADER_LEN = 32 := by decide

theorem list_length_eight (l : List Nat) (hl : l.length = 8) :
    ∃ a b c d e f g k, l = [a, b, c, d, e, f, g, k] := by
  match l, hl with
  | [a, b, c, d, e, f, g, k], _ => exact ⟨a, b, c, d, e, f, g, k, rfl⟩

theorem Decode_Encode (h : img_hdr_t) (hr : h.InRange) : Decode (Encode h) = .ok h := by
  obtain ⟨h1, h2, h3, h4, h5, h6, h7, h8, h9, h10, h11, h12, h13, -⟩ := hr
  obtain ⟨m, v, c, ds, ty, vma, vmi, vpa, va, dev, gd, ga, sha⟩ := h
  simp only [CType.bits, CType.size] at h1 h2 h3 h4 h5 h6 h7 h8 h9 h10 h11 h12 h13
  obtain ⟨s0, s1, s2, s3, s4, s5, s6, s7, rfl⟩ := list_length_eight sha h13
  simp only [Decode, Encode, slice, Field.size_eq, Field.offset_eq, header_len]
  simp only [leBytes]
  simp only [List.cons_append, List.nil_append, List.append_assoc]
  simp only [List.length_cons, List.length_nil]
  rw [if_neg (by omega)]
  simp only [List.drop_succ_cons, List.drop_zero]
  simp only [List.take_succ_cons, List.take_zero]
  simp only [leValue]
  norm_num at h1 h2 h3 h4 h5 h6 h7 h8 h9 h10 h11 h12
  simp only [Except.ok.injEq, img_hdr_t.mk.injEq]
  refine ⟨?_, ?_, ?_, ?_, ?_, ?_, ?_, ?_, ?_, ?_, ?_, ?_, trivial⟩ <;> omega

theorem slice_length (b : List Nat) (hl : HEADER_LEN ≤ b.length) (f : Field) :
    (slice b f).length = f.size := by
  rw [header_len] at hl
  cases f <;> simp [slice, Field.size_eq, Field.offset_eq] <;> omega

theorem slice_isBytes (b : List Nat) (hb : IsBytes b) (f : Field) : IsBytes (slice b f) :=
  fun x hx => hb x (List.mem_of_mem_drop (List.mem_of_mem_take hx))

theorem leBytes_leValue_slice (b : List Nat) (hl : HEADER_LEN ≤ b.length) (hb : IsBytes b)
    (f : Field) : leBytes f.size (leValue (slice b f)) = slice b f := by
  have h := leBytes_leValue (slice b f) (slice_isBytes b hb f)
  rwa [slice_length b hl f] at h

theorem leValue_slice_lt (b : List Nat) (hl : HEADER_LEN ≤ b.length) (hb : IsBytes b)
    (f : Field) : leValue (slice b f) < 256 ^ f.size := by
  have h := leValue_lt (slice b f) (slice_isBytes b hb f)
  rwa [slice_length b hl f] at h

theorem take_drop_append_drop (b : List Nat) (k n : Nat) :
    (b.drop k).take n ++ b.drop (k + n) = b.drop k := by
  rw [← List.drop_drop]
  exact List.take_append_drop n (b.drop k)

theorem slices_append (b : List Nat) :
    slice b .image_magic ++ slice b .image_hdr_version ++ slice b .crc ++ slice b .data_size ++
    slice b .image_type ++ slice b .version_major ++ slice b .version_minor ++
    slice b .version_patch ++ slice b .vector_addr ++ slice b .device_id ++
    slice b .git_dirty ++ slice b .git_ahead ++ b.drop Field.git_sha.offset = b := by
  simp only [slice, Field.size_eq, Field.offset_eq, List.append_assoc]
  rw [take_drop_append_drop b 23 1, take_drop_append_drop b 22 1, take_drop_append_drop b 20 2,
    take_drop_append_drop b 16 4, take_drop_append_drop b 15 1, take_drop_append_drop b 14 1,
    take_drop_append_drop b 13 1, take_drop_append_drop b 12 1, take_drop_append_drop b 8 4,
    take_drop_append_drop b 4 4, take_drop_append_drop b 2 2, take_drop_append_drop b 0 2]
  rfl

theorem Decode_ok (b : List Nat) (hl : HEADER_LEN ≤ b.length) :
    ∃ h, Decode b = .ok h := by
  unfold Decode
  rw [if_neg (by omega)]
  exact ⟨_, rfl⟩

theorem Decode_inRange (b : List Nat) (hb : IsBytes b) (h : img_hdr_t)
    (hd : Decode b = .ok h) : h.InRange := by
  unfold Decode at hd
  split at hd
  · cases hd
  · rename_i hl
    have hl : HEADER_LEN ≤ b.length := by omega
    have key := leValue_slice_lt b hl hb
    injection hd with hd
    subst hd
    refine ⟨?_, ?_, ?_, ?_, ?_, ?_, ?_, ?_, ?_, ?_, ?_, ?_, ?_, ?_⟩
    · exact key .image_magic
    · exact key .image_hdr_version
    · exact key .crc
    · exact key .data_size
    · exact key .image_type
    · exact key .version_major
    · exact key .version_minor
    · exact key .version_patch
    · exact key .vector_addr
    · exact key .device_id
    · exact key .git_dirty
    · exact key .git_ahead
    · exact slice_length b hl .git_sha
    · exact slice_isBytes b hb .git_sha

theorem Encode_Decode (b : List Nat) (hl : b.length = HEADER_LEN) (hb : IsBytes b)
    (h : img_hdr_t) (hd : Decode b = .ok h) : Encode h = b := by
  unfold Decode at hd
  rw [if_neg (by omega)] at hd
  injection hd with hd
  subst hd
  have key := leBytes_leValue_slice b (le_of_eq hl.symm) hb
  simp only [Encode, key]
  have e : slice b .git_sha = b.drop Field.git_sha.offset := by
    rw [header_len] at hl
    simp only [slice, Field.size_eq, Field.offset_eq]
    exact List.take_of_length_le (by simp [hl])
  rw [e]
  exact slices_append b


theorem Encode_length (h : img_hdr_t) (hr : h.InRange) : (Encode h).length = 32 := by
  have h13 : h.git_sha.length = 8 := hr.2.2.2.2.2.2.2.2.2.2.2.2.1
  simp only [Encode, List.length_append, leBytes_length, Field.size_eq, h13]

theorem Encode_isBytes (h : img_hdr_t) (hr : h.InRange) : IsBytes (Encode h) := by
  have h14 : ∀ x ∈ h.git_sha, x < 256 := hr.2.2.2.2.2.2.2.2.2.2.2.2.2
  intro x hx
  simp only [Encode, List.mem_append] at hx
  rcases hx with ((((((((((((hx | hx) | hx) | hx) | hx) | hx) | hx) | hx) | hx) | hx) | hx) | hx) | hx)
  all_goals first
    | exact leBytes_isBytes _ _ x hx
    | exact h14 x hx

/-! ### Facts about the enumerations -/

theorem type_val_iff (t : Nat) : (∃ m : image_type_t, m.val = t) ↔ (t = 0 ∨ t = 1) := by
  constructor
  · rintro ⟨m, rfl⟩
    cases m <;> decide
  · rintro (rfl | rfl)
    · exact ⟨IMAGE_TYPE_BOOTLOADER, by decide⟩
    · exact ⟨IMAGE_TYPE_APP, by decide⟩

theorem type_ofRaw_iff (t : Nat) :
    (image_type_t.ofRaw t).isSome = true ↔ (t = 0 ∨ t = 1) := by
  show (enumOfRaw t [(IMAGE_TYPE_BOOTLOADER, 0), (IMAGE_TYPE_APP, 1)]).isSome = true ↔ _
  simp only [enumOfRaw]
  split_ifs <;> simp <;> omega

theorem version_val_iff (v : Nat) : (∃ m : image_version_t, m.val = v) ↔ v = 1 := by
  constructor
  · rintro ⟨m, rfl⟩
    cases m <;> decide
  · rintro rfl
    exact ⟨IMAGE_VERSION_1, by decide⟩

theorem version_ofRaw_iff (v : Nat) :
    (image_version_t.ofRaw v).isSome = true ↔ v = 1 := by
  show (enumOfRaw v [(IMAGE_VERSION_1, 1), (IMAGE_VERSION_CURRENT, 1)]).isSome = true ↔ _
  simp only [enumOfRaw]
  split_ifs <;> simp <;> omega

theorem device_val_iff (d : Nat) :
    (∃ m : image_device_id_t, m.val = d) ↔ (1 ≤ d ∧ d ≤ 4) := by
  constructor
  · rintro ⟨m, rfl⟩
    cases m <;> decide
  · rintro ⟨h1, h4⟩
    interval_cases d
    · exact ⟨IMAGE_DEVICE_ID_HOST, by decide⟩
    · exact ⟨IMAGE_DEVICE_ID_WDDR, by decide⟩
    · exact ⟨IMAGE_DEVICE_ID_WLP, by decide⟩
    · exact ⟨IMAGE_DEVICE_ID_WTM, by decide⟩

theorem device_ofRaw_iff (d : Nat) :
    (image_device_id_t.ofRaw d).isSome = true ↔ (1 ≤ d ∧ d ≤ 4) := by
  show (enumOfRaw d [(IMAGE_DEVICE_ID_HOST, 1), (IMAGE_DEVICE_ID_WDDR, 2),
    (IMAGE_DEVICE_ID_WLP, 3), (IMAGE_DEVICE_ID_WTM, 4)]).isSome = true ↔ _
  simp only [enumOfRaw]
  split_ifs <;> simp <;> omega

/-! ### Facts about the validation chain -/

theorem deviceMatches_iff (expected : Option Nat) (dev : Nat) :
    deviceMatches expected dev = true ↔ ∀ d, expected = some d → dev = d := by
  cases expected <;> simp [deviceMatches]

theorem check_true (r : Reason) : check true r = .ok () := rfl

theorem check_false (r : Reason) : check false r = .error r := rfl

theorem Validate_eq (crc32 : List Nat → Nat) (expected : Option Nat)
    (header : img_hdr_t) (payload : List Nat) :
    Validate crc32 expected header payload =
      if (header.image_magic == IMAGE_MAGIC) = false then .invalid .BadMagic
      else if (image_version_t.ofRaw header.image_hdr_version).isSome = false then
        .invalid .UnsupportedHeaderVersion
      else if (image_type_t.ofRaw header.image_type).isSome = false then
        .invalid .UnknownImageType
      else if (image_device_id_t.ofRaw header.device_id).isSome = false then
        .invalid .UnknownDeviceId
      else if (header.data_size == payload.length) = false then .invalid .SizeMismatch
      else if (crc32 payload == header.crc) = false then .invalid .CrcMismatch
      else if deviceMatches expected header.device_id = false then .invalid .DeviceMismatch
      else .valid header (header.git_dirty != 0) := by
  unfold Validate runChecks
  cases (header.image_magic == IMAGE_MAGIC)
  · rfl
  cases (image_version_t.ofRaw header.image_hdr_version).isSome
  · rfl
  cases (image_type_t.ofRaw header.image_type).isSome
  · rfl
  cases (image_device_id_t.ofRaw header.device_id).isSome
  · rfl
  cases (header.data_size == payload.length)
  · rfl
  cases (crc32 payload == header.crc)
  · rfl
  cases deviceMatches expected header.device_id
  · rfl
  rfl

/-! ## Layout of the packed record -/

/-- C1: the packed record `img_hdr_t` has thirteen members whose sizes in
declaration order are 2, 2, 4, 4, 1, 1, 1, 1, 4, 2, 1, 1, 8 bytes, and its total
length, the sum of these sizes, is exactly 32 bytes. -/
theorem header_len_eq_32 :
    img_hdr_t.members.length = 13 ∧
    img_hdr_t.members.map (fun p => p.2.size) = [2, 2, 4, 4, 1, 1, 1, 1, 4, 2, 1, 1, 8] ∧
    HEADER_LEN = 2 + 2 + 4 + 4 + 1 + 1 + 1 + 1 + 4 + 2 + 1 + 1 + 8 ∧
    HEADER_LEN = 32 := by
  refine ⟨by decide, by decide, by decide, by decide⟩

/-- C2: in the packed layout of `img_hdr_t` the first field starts at byte 0,
every later field starts where the field declared before it ends, the last
field ends at the record length 32, and the offsets are image_magic 0,
image_hdr_version 2, crc 4, data_size 8, image_type 12, version_major 13,
version_minor 14, version_patch 15, vector_addr 16, device_id 20, git_dirty 22,
git_ahead 23, git_sha 24. -/
theorem packed_offsets_contiguous :
    img_hdr_t.members.map (fun p => (p.1, p.1.offset)) =
      [ (.image_magic, 0), (.image_hdr_version, 2), (.crc, 4), (.data_size, 8),
        (.image_type, 12), (.version_major, 13), (.version_minor, 14),
        (.version_patch, 15), (.vector_addr, 16), (.device_id, 20),
        (.git_dirty, 22), (.git_ahead, 23), (.git_sha, 24) ] ∧
    (∀ pq ∈ img_hdr_t.members.zip img_hdr_t.members.tail, pq.1.1.stop = pq.2.1.offset) ∧
    Field.image_magic.offset = 0 ∧
    Field.git_sha.stop = 32 ∧
    Field.git_sha.stop = HEADER_LEN := by
  refine ⟨by decide, by decide, by decide, by decide, by decide⟩

/-! ## Constants and enumerations -/

/-- C4: `IMAGE_MAGIC` is 0xC0FE, that is 49406; it is below 2^16, the range of
the `uint16_t` field image_magic, so storing it into that field keeps its value,
and a header whose image_magic field was assigned `IMAGE_MAGIC` compares equal
to the constant when the field is read back. -/
theorem image_magic_value_fits :
    IMAGE_MAGIC = 0xC0FE ∧
    IMAGE_MAGIC = 49406 ∧
    Field.image_magic.bits = 16 ∧
    IMAGE_MAGIC < 2 ^ Field.image_magic.bits ∧
    store Field.image_magic.bits IMAGE_MAGIC = IMAGE_MAGIC ∧
    ∀ h : img_hdr_t,
      ({ h with image_magic := store Field.image_magic.bits IMAGE_MAGIC }).image_magic
        = IMAGE_MAGIC := by
  refine ⟨by decide, by decide, by decide, by decide, by decide, fun _ => ?_⟩
  show store Field.image_magic.bits IMAGE_MAGIC = IMAGE_MAGIC
  decide

/-- C5: the enumerators have the values used on the wire: IMAGE_TYPE_BOOTLOADER
is 0 and IMAGE_TYPE_APP is 1; IMAGE_DEVICE_ID_HOST is 1, IMAGE_DEVICE_ID_WDDR is
2, IMAGE_DEVICE_ID_WLP is 3 and IMAGE_DEVICE_ID_WTM is 4. -/
theorem enum_member_values :
    IMAGE_TYPE_BOOTLOADER.val = 0 ∧
    IMAGE_TYPE_APP.val = 1 ∧
    IMAGE_DEVICE_ID_HOST.val = 1 ∧
    IMAGE_DEVICE_ID_WDDR.val = 2 ∧
    IMAGE_DEVICE_ID_WLP.val = 3 ∧
    IMAGE_DEVICE_ID_WTM.val = 4 := by
  refine ⟨by decide, by decide, by decide, by decide, by decide, by decide⟩

/-- C6: a raw value `t` is the value of a member of `image_type_t` exactly when
`t` is 0 or 1, and a raw value `d` is the value of a member of
`image_device_id_t` exactly when `1 ≤ d ≤ 4`; the conversion from raw integers
finds a member in exactly these cases, so every other bit pattern, device_id 0
included, corresponds to no member.  This holds for every natural number, in
particular for every 8-bit `t` and 16-bit `d`. -/
theorem enum_membership_iff (t d : Nat) :
    ((∃ m : image_type_t, m.val = t) ↔ (t = 0 ∨ t = 1)) ∧
    ((image_type_t.ofRaw t).isSome = true ↔ (t = 0 ∨ t = 1)) ∧
    ((∃ m : image_device_id_t, m.val = d) ↔ (1 ≤ d ∧ d ≤ 4)) ∧
    ((image_device_id_t.ofRaw d).isSome = true ↔ (1 ≤ d ∧ d ≤ 4)) ∧
    (¬ ∃ m : image_device_id_t, m.val = 0) ∧
    image_device_id_t.ofRaw 0 = none := by
  refine ⟨type_val_iff t, type_ofRaw_iff t, device_val_iff d, device_ofRaw_iff d, ?_,
    by decide⟩
  rw [device_val_iff]
  omega

/-- C7: the header versions that `image_version_t` defines are exactly the set
with the single element 1: IMAGE_VERSION_1 is 1, IMAGE_VERSION_CURRENT equals
IMAGE_VERSION_1, and a raw value `v` of image_hdr_version is the value of a
member, and is found by the conversion from raw integers, exactly when `v = 1`.
This holds for every natural number, in particular for every 16-bit `v`. -/
theorem header_version_set (v : Nat) :
    IMAGE_VERSION_1.val = 1 ∧
    IMAGE_VERSION_CURRENT.val = IMAGE_VERSION_1.val ∧
    (enumEval image_version_t.decl).map (fun p => p.2) = [1, 1] ∧
    ((∃ m : image_version_t, m.val = v) ↔ v = 1) ∧
    ((image_version_t.ofRaw v).isSome = true ↔ v = 1) := by
  refine ⟨by decide, by decide, by decide, version_val_iff v, version_ofRaw_iff v⟩

/-- C9: every member of `image_type_t`, `image_version_t` and
`image_device_id_t` is below 2^width of the field that stores it (image_type 8
bits, image_hdr_version and device_id 16 bits), so storing its value modulo
2^width keeps the value, and converting the stored value back finds the same
member (for `image_version_t`, whose two members share the value 1, a member of
the same value); distinct members of `image_type_t` and of `image_device_id_t`
have distinct stored values. -/
theorem enum_members_fit_fields :
    Field.image_type.bits = 8 ∧
    Field.image_hdr_version.bits = 16 ∧
    Field.device_id.bits = 16 ∧
    (∀ m : image_type_t,
      m.val < 2 ^ Field.image_type.bits ∧
      store Field.image_type.bits m.val = m.val ∧
      image_type_t.ofRaw (store Field.image_type.bits m.val) = some m) ∧
    (∀ m : image_version_t,
      m.val < 2 ^ Field.image_hdr_version.bits ∧
      store Field.image_hdr_version.bits m.val = m.val ∧
      (image_version_t.ofRaw (store Field.image_hdr_version.bits m.val)).map
        image_version_t.val = some m.val) ∧
    (∀ m : image_device_id_t,
      m.val < 2 ^ Field.device_id.bits ∧
      store Field.device_id.bits m.val = m.val ∧
      image_device_id_t.ofRaw (store Field.device_id.bits m.val) = some m) ∧
    (∀ a b : image_type_t,
      store Field.image_type.bits a.val = store Field.image_type.bits b.val → a = b) ∧
    (∀ a b : image_device_id_t,
      store Field.device_id.bits a.val = store Field.device_id.bits b.val → a = b) := by
  refine ⟨by decide, by decide, by decide, ?_, ?_, ?_, ?_, ?_⟩
  · intro m
    cases m <;> decide
  · intro m
    cases m <;> decide
  · intro m
    cases m <;> decide
  · intro a b
    cases a <;> cases b <;> decide
  · intro a b
    cases a <;> cases b <;> decide

/-! ## Header codec -/

/-- C3: for every header value whose fields are within their declared widths,
`Encode` yields 32 bytes and `Decode` of these bytes gives the header back:
`Decode (Encode h) = h`. -/
theorem decode_encode_roundtrip (h : img_hdr_t) (hr : h.InRange) :
    (Encode h).length = 32 ∧ IsBytes (Encode h) ∧ Decode (Encode h) = .ok h :=
  ⟨Encode_length h hr, Encode_isBytes h hr, Decode_Encode h hr⟩

/-- Witness of C3 at the sample header. -/
theorem decode_encode_roundtrip_witness :
    sampleHeader.InRange ∧ Decode (Encode sampleHeader) = .ok sampleHeader :=
  ⟨by decide, (decode_encode_roundtrip sampleHeader (by decide)).2.2⟩

/-- C10: `Decode` is total and lossless on header-length input: every 32-byte
buffer decodes, with no check of enum membership, to a header value whose fields
are within their widths and whose encoding is the buffer again; and `Decode` is
a bijection between the 32-byte buffers and the in-range header values. -/
theorem decode_total_bijective :
    (∀ b : List Nat, b.length = 32 → IsBytes b →
      ∃ h, Decode b = .ok h ∧ h.InRange ∧ Encode h = b) ∧
    Set.BijOn Decode {b | b.length = 32 ∧ IsBytes b}
      {r | ∃ h : img_hdr_t, h.InRange ∧ r = .ok h} := by
  have total : ∀ b : List Nat, b.length = 32 → IsBytes b →
      ∃ h, Decode b = .ok h ∧ h.InRange ∧ Encode h = b := by
    intro b hl hb
    have hl2 : b.length = HEADER_LEN := by rw [header_len]; exact hl
    obtain ⟨h, hd⟩ := Decode_ok b (le_of_eq hl2.symm)
    exact ⟨h, hd, Decode_inRange b hb h hd, Encode_Decode b hl2 hb h hd⟩
  refine ⟨total, ?_, ?_, ?_⟩
  · rintro b ⟨hl, hb⟩
    obtain ⟨h, hd, hr, -⟩ := total b hl hb
    exact ⟨h, hr, hd⟩
  · rintro b ⟨hl, hb⟩ c ⟨hl2, hb2⟩ heq
    obtain ⟨h, hd, -, he⟩ := total b hl hb
    obtain ⟨k, hd2, -, he2⟩ := total c hl2 hb2
    have hk : h = k := by
      have e : (Except.ok h : Except DecodeError img_hdr_t) = .ok k := by
        rw [← hd, ← hd2, heq]
      injection e
    rw [← he, ← he2, hk]
  · rintro r ⟨h, hr, rfl⟩
    exact ⟨Encode h, ⟨Encode_length h hr, Encode_isBytes h hr⟩, Decode_Encode h hr⟩

/-- Witness of C10 at a buffer whose image_type byte is 0xFF and whose
device_id bytes are zero, neither the value of an enum member: it decodes, and
encoding the result gives the buffer back. -/
theorem decode_total_bijective_witness :
    image_type_t.ofRaw 0xFF = none ∧ image_device_id_t.ofRaw 0 = none ∧
    ∃ h, Decode sampleBuffer = .ok h ∧ h.InRange ∧ Encode h = sampleBuffer ∧
      h.image_type = 0xFF ∧ h.device_id = 0 := by
  obtain ⟨h, hd, hr, he⟩ := decode_total_bijective.1 sampleBuffer (by decide) (by decide)
  have e : Decode sampleBuffer = .ok sampleDecoded := rfl
  rw [e] at hd
  injection hd with hd
  subst hd
  exact ⟨by decide, by decide, sampleDecoded, e, hr, he, rfl, rfl⟩

/-! ## Header validator -/

/-- C8: for every header and payload (and every checksum function and optional
expected device), `Validate` returns `valid` exactly when all checks pass, and
otherwise the reason of the first failing check in the order magic (BadMagic),
header version (UnsupportedHeaderVersion), image type (UnknownImageType),
device id (UnknownDeviceId), data_size against the payload length
(SizeMismatch), CRC (CrcMismatch), expected device (DeviceMismatch): each reason
is returned exactly when all earlier checks pass and its own check fails.  In
particular a header whose magic differs from `IMAGE_MAGIC` yields BadMagic
whatever its other fields are. -/
theorem validate_first_failure (crc32 : List Nat → Nat) (expected : Option Nat)
    (header : img_hdr_t) (payload : List Nat) :
    (Validate crc32 expected header payload = .valid header (header.git_dirty != 0) ↔
      (header.image_magic = IMAGE_MAGIC ∧
       (∃ m : image_version_t, m.val = header.image_hdr_version) ∧
       (∃ m : image_type_t, m.val = header.image_type) ∧
       (∃ m : image_device_id_t, m.val = header.device_id) ∧
       header.data_size = payload.length ∧
       crc32 payload = header.crc ∧
       (∀ d, expected = some d → header.device_id = d))) ∧
    ((∃ r, Validate crc32 expected header payload = .invalid r) ↔
      ¬ (header.image_magic = IMAGE_MAGIC ∧
       (∃ m : image_version_t, m.val = header.image_hdr_version) ∧
       (∃ m : image_type_t, m.val = header.image_type) ∧
       (∃ m : image_device_id_t, m.val = header.device_id) ∧
       header.data_size = payload.length ∧
       crc32 payload = header.crc ∧
       (∀ d, expected = some d → header.device_id = d))) ∧
    (Validate crc32 expected header payload = .invalid .BadMagic ↔
      header.image_magic ≠ IMAGE_MAGIC) ∧
    (Validate crc32 expected header payload = .invalid .UnsupportedHeaderVersion ↔
      (header.image_magic = IMAGE_MAGIC ∧
       ¬ ∃ m : image_version_t, m.val = header.image_hdr_version)) ∧
    (Validate crc32 expected header payload = .invalid .UnknownImageType ↔
      (header.image_magic = IMAGE_MAGIC ∧
       (∃ m : image_version_t, m.val = header.image_hdr_version) ∧
       ¬ ∃ m : image_type_t, m.val = header.image_type)) ∧
    (Validate crc32 expected header payload = .invalid .UnknownDeviceId ↔
      (header.image_magic = IMAGE_MAGIC ∧
       (∃ m : image_version_t, m.val = header.image_hdr_version) ∧
       (∃ m : image_type_t, m.val = header.image_type) ∧
       ¬ ∃ m : image_device_id_t, m.val = header.device_id)) ∧
    (Validate crc32 expected header payload = .invalid .SizeMismatch ↔
      (header.image_magic = IMAGE_MAGIC ∧
       (∃ m : image_version_t, m.val = header.image_hdr_version) ∧
       (∃ m : image_type_t, m.val = header.image_type) ∧
       (∃ m : image_device_id_t, m.val = header.device_id) ∧
       header.data_size ≠ payload.length)) ∧
    (Validate crc32 expected header payload = .invalid .CrcMismatch ↔
      (header.image_magic = IMAGE_MAGIC ∧
       (∃ m : image_version_t, m.val = header.image_hdr_version) ∧
       (∃ m : image_type_t, m.val = header.image_type) ∧
       (∃ m : image_device_id_t, m.val = header.device_id) ∧
       header.data_size = payload.length ∧
       crc32 payload ≠ header.crc)) ∧
    (Validate crc32 expected header payload = .invalid .DeviceMismatch ↔
      (header.image_magic = IMAGE_MAGIC ∧
       (∃ m : image_version_t, m.val = header.image_hdr_version) ∧
       (∃ m : image_type_t, m.val = header.image_type) ∧
       (∃ m : image_device_id_t, m.val = header.device_id) ∧
       header.data_size = payload.length ∧
       crc32 payload = header.crc ∧
       ∃ d, expected = some d ∧ header.device_id ≠ d)) := by
  have hm : header.image_magic = IMAGE_MAGIC ↔
      (header.image_magic == IMAGE_MAGIC) = true := by simp
  have hv := (version_val_iff header.image_hdr_version).trans
    (version_ofRaw_iff header.image_hdr_version).symm
  have ht := (type_val_iff header.image_type).trans (type_ofRaw_iff header.image_type).symm
  have hd := (device_val_iff header.device_id).trans (device_ofRaw_iff header.device_id).symm
  have hs : header.data_size = payload.length ↔
      (header.data_size == payload.length) = true := by simp
  have hc : crc32 payload = header.crc ↔ (crc32 payload == header.crc) = true := by simp
  have he := (deviceMatches_iff expected header.device_id).symm
  have he2 : (∃ d, expected = some d ∧ header.device_id ≠ d) ↔
      deviceMatches expected header.device_id = false := by
    cases expected <;> simp [deviceMatches]
  rw [Validate_eq]
  simp only [ne_eq, hm, hv, ht, hd, hs, hc, he, he2]
  generalize (header.image_magic == IMAGE_MAGIC) = b1
  generalize (image_version_t.ofRaw header.image_hdr_version).isSome = b2
  generalize (image_type_t.ofRaw header.image_type).isSome = b3
  generalize (image_device_id_t.ofRaw header.device_id).isSome = b4
  generalize (header.data_size == payload.length) = b5
  generalize (crc32 payload == header.crc) = b6
  generalize deviceMatches expected header.device_id = b7
  cases b1 <;> cases b2 <;> cases b3 <;> cases b4 <;> cases b5 <;> cases b6 <;> cases b7 <;>
    simp

end Image
